import Mathlib

/-!
Shallow embedding of the DocGen pipeline (source file source/docgen.js).

JSON payloads are modelled by the inductive type JValue; JSON numbers are
modelled as integers, which covers every value the schemas constrain
(the only numeric field is the integer column of a section).  Objects
produced by JSON.parse have unique keys, so field lookup takes the first
match.  The asynchronous stages of the pipeline are modelled as a
sequential function run on an explicit Input record describing the
outcome of each external effect (file reads, writes, copies, the version
probe of the external PDF renderer).
-/

namespace DocGen

/-- JSON values, as parsed by JSON.parse. -/
inductive JValue where
  | null : JValue
  | bool (b : Bool) : JValue
  | int (n : Int) : JValue
  | str (s : String) : JValue
  | arr (items : List JValue) : JValue
  | obj (fields : List (String × JValue)) : JValue

/-- Field lookup on a parsed JSON object (unique keys). -/
def getField (fields : List (String × JValue)) (key : String) : Option JValue :=
  (fields.find? (fun p => p.1 == key)).map (fun p => p.2)

/-- Presence test for a required property (z-schema required list). -/
def hasField (fields : List (String × JValue)) (key : String) : Bool :=
  (fields.find? (fun p => p.1 == key)).isSome

/-- Schema property of type string: constrains the field only when present. -/
def strIfPresent (fields : List (String × JValue)) (key : String) : Bool :=
  match getField fields key with
  | some (JValue.str _) => true
  | some _ => false
  | none => true

/-- Schema property of type boolean: constrains the field only when present. -/
def boolIfPresent (fields : List (String × JValue)) (key : String) : Bool :=
  match getField fields key with
  | some (JValue.bool _) => true
  | some _ => false
  | none => true

/-- Schema property of type integer with inclusive minimum and maximum. -/
def intRangeIfPresent (fields : List (String × JValue)) (key : String)
    (lo hi : Int) : Bool :=
  match getField fields key with
  | some (JValue.int n) => decide (lo ≤ n) && decide (n ≤ hi)
  | some _ => false
  | none => true

/-- Schema property of type array whose items must each satisfy f. -/
def arrIfPresent (fields : List (String × JValue)) (key : String)
    (f : JValue → Bool) : Bool :=
  match getField fields key with
  | some (JValue.arr items) => items.all f
  | some _ => false
  | none => true

/-- Schema property holding a sub-object that must satisfy f when present. -/
def objIfPresent (fields : List (String × JValue)) (key : String)
    (f : JValue → Bool) : Bool :=
  match getField fields key with
  | some v => f v
  | none => true

/-- Sub-schema used by organization, author, owner, website, backlink and
each contributor: an object with required string fields name and url. -/
def validNameUrl (j : JValue) : Bool :=
  match j with
  | JValue.obj fs =>
      hasField fs "name" && hasField fs "url" &&
      strIfPresent fs "name" && strIfPresent fs "url"
  | _ => false

/-- Translation of schemas.parameters from the source: required list of
fourteen fields (backlink is absent from the required list) and typed
properties. -/
def validateParameters (j : JValue) : Bool :=
  match j with
  | JValue.obj fs =>
      (["title", "name", "version", "date", "organization", "author",
        "owner", "contributors", "website", "module", "id", "summary",
        "marking", "legalese"].all (hasField fs)) &&
      strIfPresent fs "title" && strIfPresent fs "name" &&
      strIfPresent fs "version" && strIfPresent fs "date" &&
      objIfPresent fs "organization" validNameUrl &&
      objIfPresent fs "author" validNameUrl &&
      objIfPresent fs "owner" validNameUrl &&
      arrIfPresent fs "contributors" validNameUrl &&
      objIfPresent fs "website" validNameUrl &&
      objIfPresent fs "backlink" validNameUrl &&
      strIfPresent fs "module" && strIfPresent fs "id" &&
      strIfPresent fs "summary" && strIfPresent fs "marking" &&
      strIfPresent fs "legalese"
  | _ => false

/-- Translation of the page item schema inside schemas.contents. -/
def validPage (j : JValue) : Bool :=
  match j with
  | JValue.obj fs =>
      hasField fs "title" && hasField fs "source" &&
      strIfPresent fs "title" && strIfPresent fs "source" &&
      boolIfPresent fs "html"
  | _ => false

/-- Translation of the section item schema inside schemas.contents: the
required list names heading, column and pages; the properties list
constrains name (a string), column (an integer from 1 to 4) and pages. -/
def validSection (j : JValue) : Bool :=
  match j with
  | JValue.obj fs =>
      hasField fs "heading" && hasField fs "column" && hasField fs "pages" &&
      strIfPresent fs "name" &&
      intRangeIfPresent fs "column" 1 4 &&
      arrIfPresent fs "pages" validPage
  | _ => false

/-- Translation of schemas.contents from the source: an array of sections. -/
def validateContents (j : JValue) : Bool :=
  match j with
  | JValue.arr items => items.all validSection
  | _ => false

/-- A page entry of the contents metadata, as used after validation. -/
structure Page where
  title : String
  source : String
  html : Bool
deriving DecidableEq

/-- A section of the contents metadata, as used after validation. -/
structure TocSection where
  heading : String
  column : Int
  pages : List Page
deriving DecidableEq

/-- Coercion of a looked-up JSON value to a string (validated inputs
always hit the str case). -/
def asStr : Option JValue → String
  | some (JValue.str s) => s
  | _ => ""

/-- Coercion of a looked-up JSON value to an integer (validated inputs
always hit the int case). -/
def asInt : Option JValue → Int
  | some (JValue.int n) => n
  | _ => 0

/-- Coercion of a looked-up JSON value to an array (validated inputs
always hit the arr case). -/
def asArr : Option JValue → List JValue
  | some (JValue.arr items) => items
  | _ => []

/-- Reading of one page object out of the validated contents JSON.  The
source tests page.html with strict equality against true. -/
def decodePage (j : JValue) : Page :=
  match j with
  | JValue.obj fs =>
      { title := asStr (getField fs "title")
        source := asStr (getField fs "source")
        html := match getField fs "html" with
                | some (JValue.bool true) => true
                | _ => false }
  | _ => { title := "", source := "", html := false }

/-- Reading of one section object out of the validated contents JSON. -/
def decodeSection (j : JValue) : TocSection :=
  match j with
  | JValue.obj fs =>
      { heading := asStr (getField fs "heading")
        column := asInt (getField fs "column")
        pages := (asArr (getField fs "pages")).map decodePage }
  | _ => { heading := "", column := 0, pages := [] }

/-- Reading of the whole validated contents JSON. -/
def decodeContents (j : JValue) : List TocSection :=
  match j with
  | JValue.arr items => items.map decodeSection
  | _ => []

/-- The synthetic section pushed by loadMeta after validation succeeds. -/
def extraSection : TocSection :=
  { heading := "Extra", column := 5,
    pages := [{ title := "Release notes", source := "release-notes.txt",
                html := false }] }

/-- The meta.contents.push(extra) step of loadMeta. -/
def augmentContents (contents : List TocSection) : List TocSection :=
  contents ++ [extraSection]

/-- BOM removal performed by readFile on every file it loads: one leading
U+FEFF character is dropped. -/
def stripBOM (s : String) : String :=
  match s.data with
  | c :: cs => if c = '\uFEFF' then String.mk cs else s
  | [] => s

/-- Per-page content loading in loadMarkdown: a page flagged html keeps
the file text verbatim, any other page goes through the Markdown
renderer (passed here as an arbitrary function, since the renderer is an
external capability). -/
def loadPage (render : String → String) (pageHtml : Bool) (raw : String) : String :=
  if pageHtml then stripBOM raw else render (stripBOM raw)

/-- The pages mapping built by loadMarkdown, keyed by source identifier.
The trailing entry mirrors the vestigial extra read of the release notes
that the source stores under the key produced by an undefined source
field. -/
def loadPages (render : String → String) (contents : List TocSection)
    (files : String → String) : List (String × String) :=
  (contents.flatMap (fun s => s.pages)).map
    (fun p => (p.source, loadPage render p.html (files p.source)))
  ++ [("undefined", render (stripBOM (files "release-notes.txt")))]

/-- Characters of a list strictly before the final dot, none when the
list holds no dot (the substr with lastIndexOf idiom of the source). -/
def dropExtAux : List Char → Option (List Char)
  | [] => none
  | c :: cs =>
      match dropExtAux cs with
      | some r => some (c :: r)
      | none => if c = '.' then some [] else none

/-- Output name derivation: text before the last dot, empty when the
source identifier holds no dot (substr of a negative length yields the
empty string in the source). -/
def dropExt (s : String) : String :=
  match dropExtAux s.data with
  | some r => String.mk r
  | none => ""

/-- The per-page output path: extension dropped, .html appended. -/
def pageOutputPath (p : Page) : String :=
  dropExt p.source ++ ".html"

/-- The ordered output paths of the pages of one section. -/
def sectionPagePaths (s : TocSection) : List String :=
  s.pages.map pageOutputPath

/-- Translation of sortPages: bucket k collects, in input order, exactly
the sections whose column equals k; only columns 1 to 5 exist as
buckets, any other column value is dropped. -/
def sortPages (contents : List TocSection) (column : Nat) : List TocSection :=
  if 1 ≤ column ∧ column ≤ 5 then
    contents.filter (fun s => s.column == (column : Int))
  else []

/-- Page paths in the order the web table of contents emits its links:
columns 1 to 4 of the sorted pages, column 5 being skipped by webToc. -/
def webTocPaths (sorted : Nat → List TocSection) : List String :=
  [1, 2, 3, 4].flatMap (fun k => (sorted k).flatMap sectionPagePaths)

/-- Page paths in the order getPdfArguments appends them to the argument
list of the external renderer: columns 1 to 5 of the sorted pages, each
path prefixed with the output root. -/
def pdfPagePaths (output : String) (sorted : Nat → List TocSection) : List String :=
  [1, 2, 3, 4, 5].flatMap
    (fun k => (sorted k).flatMap
      (fun s => s.pages.map (fun p => output ++ pageOutputPath p)))

/-- Whitespace class of the regular expression engine used by the
heading slug replacement. -/
def jsWhitespace (c : Char) : Bool :=
  let n := c.toNat
  n = 32 || n = 9 || n = 10 || n = 13 || n = 11 || n = 12 ||
  n = 0xa0 || n = 0x1680 || (0x2000 ≤ n && n ≤ 0x200a) ||
  n = 0x2028 || n = 0x2029 || n = 0x202f || n = 0x205f || n = 0x3000 ||
  n = 0xfeff

/-- Whitespace trimming at both ends of a string, as the trim call of
checkPdfVersion applies it to the observed version output. -/
def jsTrim (s : String) : String :=
  String.mk (((s.data.dropWhile jsWhitespace).reverse.dropWhile jsWhitespace).reverse)

/-- Lowercasing of one character on the basic Latin range only: the
uppercase range shifts down by 32, everything else is untouched.  This
is not the full case conversion of the scripting language; it is the
fragment used to instantiate the lowercasing contract concretely in
the witness of the slug claim. -/
def toLowerCh (c : Char) : Char :=
  if h : 65 ≤ c.toNat ∧ c.toNat ≤ 90 then
    Char.ofNatAux (c.toNat + 32) (Or.inl (by omega))
  else c

/-- The basic Latin uppercase range, the character class rewritten by
the sample lowercasing instance below. -/
def upperLatin (c : Char) : Bool := decide (65 ≤ c.toNat ∧ c.toNat ≤ 90)

/-- A sample lowercasing function covering the basic Latin range, used
only to instantiate the lowercasing contract in the witness of the
slug claim. -/
def basicLatinLower (s : String) : String := String.mk (s.data.map toLowerCh)

/-- Replacement of every whitespace run by one hyphen, the effect of the
global regex replace in processContent; the flag records whether the
previous character belonged to a run already replaced. -/
def collapseWs : Bool → List Char → List Char
  | _, [] => []
  | prevWs, c :: cs =>
      if jsWhitespace c then
        (if prevWs then [] else ['-']) ++ collapseWs true cs
      else c :: collapseWs false cs

/-- The heading-to-anchor slug of processContent, parameterized by the
lowercasing builtin of the scripting language (an external capability
performing Unicode full case conversion, which is not a per-character
map): lowercase the heading text, then replace each whitespace run
with one hyphen. -/
def slugifyWith (low : String → String) (label : String) : String :=
  String.mk (collapseWs false (low label).data)

/-- Outcome of one copyDirSync call on which the copy operation fails or
succeeds: the error is always reported, and the process exits with
status 1 exactly when the verbose option is set. -/
structure CopyOutcome where
  reported : Bool
  exited : Bool
deriving DecidableEq

/-- Translation of copyDirSync: on a copy error the message is printed
unconditionally, while mainProcess.exit(1) sits inside the verbose
branch. -/
def copyDirSync (verbose : Bool) (copyFails : Bool) : CopyOutcome :=
  if copyFails then { reported := true, exited := verbose }
  else { reported := false, exited := false }

/-- Property access of the scripting language: reading a property of
undefined or null throws, reading a missing property of an object gives
undefined (modelled as none), reading a property of another primitive
gives undefined. -/
def deref : Option JValue → String → Except String (Option JValue)
  | none, _ => Except.error "TypeError: cannot read property of undefined"
  | some JValue.null, _ => Except.error "TypeError: cannot read property of null"
  | some (JValue.obj fs), key => Except.ok (getField fs key)
  | some _, _ => Except.ok none

/-- String coercion of a field value as used when the source
concatenates it into markup.  Array values never reach this function in
the fields the pipeline renders, so their stringification is elided. -/
def jsString : Option JValue → String
  | none => "undefined"
  | some JValue.null => "null"
  | some (JValue.bool b) => if b then "true" else "false"
  | some (JValue.int n) => toString n
  | some (JValue.str s) => s
  | some (JValue.arr _) => ""
  | some (JValue.obj _) => "[object Object]"

/-- Translation of the link-or-text rendering insertParameters applies
to organization, author, owner, website and backlink: the url property
of the field is dereferenced unconditionally, then a non-empty url
renders an anchor and an empty one renders the plain name. -/
def linkOrText (params : JValue) (field : String) : Except String String :=
  match deref (some params) field with
  | Except.error e => Except.error e
  | Except.ok f =>
      match deref f "url" with
      | Except.error e => Except.error e
      | Except.ok url =>
          match deref f "name" with
          | Except.error e => Except.error e
          | Except.ok name =>
              match url with
              | some (JValue.str "") => Except.ok (jsString name)
              | _ =>
                  Except.ok ("<a href=\"" ++ jsString url ++ "\">" ++
                    jsString name ++ "</a>")

/-- Translation of the failure-relevant accesses of insertParameters,
in source order: the home link reads the first page of the first
section of the (by then augmented) contents, then author, owner,
organization, website and backlink are rendered through the
link-or-text pattern, each dereferencing the url property of its field
unconditionally.  Any of these throws a type error, which rejects the
pipeline promise chain so the run exits with status 1 before any page
is written.  The remaining injections (title, name, dates, summary,
contributors, logo) cannot throw on schema-validated input: their
fields are in the required list with enforced types, the contributor
items are schema-required to carry name and url, and the logo probe
has its own exception handler. -/
def insertParameters (params : JValue) (contents : List TocSection) :
    Except String Unit :=
  match contents with
  | [] => Except.error "TypeError: cannot read property of undefined"
  | s :: _ =>
    match s.pages with
    | [] => Except.error "TypeError: cannot read property of undefined"
    | _ :: _ =>
      match linkOrText params "author" with
      | Except.error e => Except.error e
      | Except.ok _ =>
        match linkOrText params "owner" with
        | Except.error e => Except.error e
        | Except.ok _ =>
          match linkOrText params "organization" with
          | Except.error e => Except.error e
          | Except.ok _ =>
            match linkOrText params "website" with
            | Except.error e => Except.error e
            | Except.ok _ =>
              match linkOrText params "backlink" with
              | Except.error e => Except.error e
              | Except.ok _ => Except.ok ()

/-- Destination of one file written by the run: at the output root, in
the transient temp subdirectory, or one directory above the output root
(the redirect stub). -/
inductive OutLoc where
  | root (name : String) : OutLoc
  | temp (name : String) : OutLoc
  | parent (name : String) : OutLoc
deriving DecidableEq

/-- The ordered writeFile targets of writePages: one page file per page
of the contents list, then ownership.html, then, when a PDF was
requested, the three transient cover, header and footer files. -/
def writeTargets (contents : List TocSection) (pdf : Bool) : List OutLoc :=
  contents.flatMap (fun s => s.pages.map (fun p => OutLoc.root (pageOutputPath p)))
  ++ [OutLoc.root "ownership.html"]
  ++ (if pdf then
        [OutLoc.temp "pdfCover.html", OutLoc.temp "pdfHeader.html",
         OutLoc.temp "pdfFooter.html"]
      else [])

/-- Names of the files a write list places directly at the output root. -/
def rootFiles (writes : List OutLoc) : List String :=
  writes.filterMap (fun w =>
    match w with
    | OutLoc.root name => some name
    | _ => none)

/-- The pinned known-good version string of the external renderer. -/
def wkhtmltopdfVersion : String := "wkhtmltopdf 0.12.2.1 (with patched qt)"

/-- The configuration switches of the run that the claims depend on. -/
structure Options where
  pdf : Bool
  verbose : Bool
  redirect : Bool
deriving DecidableEq

/-- Outcome of every external effect one run performs: the parse result
of the two metadata files (none models malformed JSON), whether the
source reads and the page writes succeed, whether the two static copy
steps fail, the observed output of the version probe of the external
renderer (none models a failure to execute it), and the exit code of
the renderer subprocess. -/
structure Input where
  parametersJson : Option JValue
  contentsJson : Option JValue
  sourcesOk : Bool
  writesOk : Bool
  copyRequireFails : Bool
  copyFilesFails : Bool
  versionOutput : Option String
  pdfExitCode : Int

/-- Observable outcome of one run: the process exit status, the ordered
list of files the run wrote itself, the warnings it printed, and
whether the external renderer was invoked (the PDF file exists only
when it was). -/
structure RunResult where
  exitCode : Nat
  writes : List OutLoc
  warnings : List String
  pdfInvoked : Bool
deriving DecidableEq

/-- The pipeline: loadMeta validates parameters then contents and halts
on any failure, the contents gain the synthetic extra section, the
source files load, processContent injects the parameters (a thrown
type error there — the home link or any link-or-text dereference —
rejects the promise chain and the run exits 1 before anything is
written), writePages writes the page files, the copy steps run (fatal
only under verbose), then either the PDF path (version probe, renderer
subprocess, a warning on a bad version string or a non-zero renderer
exit) or directly the cleanup with the optional redirect stub.
Template loading is assumed successful since the templates ship with
the tool. -/
def run (opts : Options) (inp : Input) : RunResult :=
  match inp.parametersJson with
  | none => { exitCode := 1, writes := [], warnings := [], pdfInvoked := false }
  | some pj =>
    if validateParameters pj then
      match inp.contentsJson with
      | none => { exitCode := 1, writes := [], warnings := [], pdfInvoked := false }
      | some cj =>
        if validateContents cj then
          let contents := augmentContents (decodeContents cj)
          if inp.sourcesOk then
            match insertParameters pj contents with
            | Except.error _ =>
                { exitCode := 1, writes := [], warnings := [], pdfInvoked := false }
            | Except.ok _ =>
              let targets := writeTargets contents opts.pdf
              if inp.writesOk then
                if (copyDirSync opts.verbose inp.copyRequireFails).exited then
                  { exitCode := 1, writes := targets, warnings := [], pdfInvoked := false }
                else if (copyDirSync opts.verbose inp.copyFilesFails).exited then
                  { exitCode := 1, writes := targets, warnings := [], pdfInvoked := false }
                else
                  let final := targets ++
                    (if opts.redirect then [OutLoc.parent "index.html"] else [])
                  if opts.pdf then
                    match inp.versionOutput with
                    | none =>
                        { exitCode := 1, writes := targets, warnings := [],
                          pdfInvoked := false }
                    | some out =>
                        { exitCode := 0, writes := final,
                          warnings :=
                            (if jsTrim out != wkhtmltopdfVersion then
                              ["unexpected version of wkhtmltopdf"] else []) ++
                            (if inp.pdfExitCode != 0 then
                              ["wkhtmltopdf exited with a warning or error"] else []),
                          pdfInvoked := true }
                  else
                    { exitCode := 0, writes := final, warnings := [],
                      pdfInvoked := false }
              else
                { exitCode := 1, writes := targets, warnings := [], pdfInvoked := false }
          else
            { exitCode := 1, writes := [], warnings := [], pdfInvoked := false }
        else
          { exitCode := 1, writes := [], warnings := [], pdfInvoked := false }
    else
      { exitCode := 1, writes := [], warnings := [], pdfInvoked := false }

/-- A name and url pair as JSON, for building concrete inputs. -/
def nameUrl (n u : String) : JValue :=
  JValue.obj [("name", JValue.str n), ("url", JValue.str u)]

/-- The fourteen required fields of a concrete parameters document. -/
def pExampleFields : List (String × JValue) :=
  [("title", JValue.str "Example Doc"), ("name", JValue.str "Widget"),
   ("version", JValue.str "1.0"), ("date", JValue.str "01/01/2020"),
   ("organization", nameUrl "Org" ""), ("author", nameUrl "Author" ""),
   ("owner", nameUrl "Owner" ""),
   ("contributors", JValue.arr [nameUrl "Con" ""]),
   ("website", nameUrl "Web" ""), ("module", JValue.str "mod"),
   ("id", JValue.str "id1"), ("summary", JValue.str "sum"),
   ("marking", JValue.str "mark"), ("legalese", JValue.str "legal")]

/-- A concrete parameters document holding every required field and no
backlink field; the schema accepts it because backlink is not in the
required list, yet the parameter injection throws on it. -/
def pExample : JValue := JValue.obj pExampleFields

/-- A concrete parameters document that also carries the backlink
field, so the parameter injection succeeds on it. -/
def pFull : JValue :=
  JValue.obj (pExampleFields ++ [("backlink", nameUrl "Back" "")])

/-- A concrete contents section with one page and a chosen column. -/
def sectionWithColumn (c : Int) : JValue :=
  JValue.obj
    [("heading", JValue.str "Guide"), ("column", JValue.int c),
     ("pages", JValue.arr
       [JValue.obj [("title", JValue.str "Intro"),
                    ("source", JValue.str "intro.md")]])]

/-- A concrete contents document with one section in column 1. -/
def cExample : JValue := JValue.arr [sectionWithColumn 1]

/-- Options with every toggle off. -/
def optsNoPdf : Options := { pdf := false, verbose := false, redirect := false }

/-- Options with the PDF toggle on. -/
def optsPdf : Options := { pdf := true, verbose := false, redirect := false }

/-- A fully successful input with the one-section contents document and
the backlink-carrying parameters. -/
def inpGoodNoPdf : Input :=
  { parametersJson := some pFull, contentsJson := some cExample,
    sourcesOk := true, writesOk := true, copyRequireFails := false,
    copyFilesFails := false, versionOutput := none, pdfExitCode := 0 }

/-- A successful input whose renderer version probe reports a string
different from the pinned one. -/
def inpGoodPdfBadVersion : Input :=
  { inpGoodNoPdf with versionOutput := some "wkhtmltopdf 0.13.0 (unpatched)" }

/-- A successful input whose contents document declares no section. -/
def inpEmptyContents : Input :=
  { inpGoodNoPdf with contentsJson := some (JValue.arr []) }

/-- An input whose parameters file is malformed JSON. -/
def inpNoParams : Input :=
  { inpGoodNoPdf with parametersJson := none }

/-- A concrete page flagged as raw HTML. -/
def rawPage : Page := { title := "Raw", source := "raw.html", html := true }

/-- A concrete section holding the raw HTML page. -/
def rawSection : TocSection := { heading := "G", column := 1, pages := [rawPage] }

theorem hasField_eq_isSome (fs : List (String × JValue)) (k : String) :
    hasField fs k = (getField fs k).isSome := by
  simp [hasField, getField]

theorem rootFiles_append (a b : List OutLoc) :
    rootFiles (a ++ b) = rootFiles a ++ rootFiles b := by
  simp [rootFiles]

theorem rootFiles_pageTargets (l : List Page) :
    rootFiles (l.map (fun p => OutLoc.root (pageOutputPath p))) =
      l.map pageOutputPath := by
  induction l with
  | nil => rfl
  | cons p ps ih => simpa [rootFiles, List.filterMap_cons] using ih

theorem rootFiles_sections (c : List TocSection) :
    rootFiles (c.flatMap (fun s => s.pages.map (fun p => OutLoc.root (pageOutputPath p))))
      = c.flatMap sectionPagePaths := by
  induction c with
  | nil => rfl
  | cons s rest ih =>
      simp only [List.flatMap_cons, rootFiles_append, ih, rootFiles_pageTargets,
        sectionPagePaths]

theorem rootFiles_writeTargets (c : List TocSection) (pdf : Bool) :
    rootFiles (writeTargets c pdf) = c.flatMap sectionPagePaths ++ ["ownership.html"] := by
  cases pdf <;>
    simp [writeTargets, rootFiles_append, rootFiles_sections,
      show rootFiles [OutLoc.root "ownership.html"] = ["ownership.html"] from rfl,
      show rootFiles [OutLoc.root "ownership.html", OutLoc.temp "pdfCover.html",
        OutLoc.temp "pdfHeader.html", OutLoc.temp "pdfFooter.html"] =
          ["ownership.html"] from rfl]

theorem sectionPagePaths_extra : sectionPagePaths extraSection = ["release-notes.html"] := by
  decide

theorem flatMap_augment (c : List TocSection) :
    (augmentContents c).flatMap sectionPagePaths =
      c.flatMap sectionPagePaths ++ ["release-notes.html"] := by
  simp [augmentContents, sectionPagePaths_extra]

/-- C3 counterexample: with verbose diagnostics off (the default), a
failure inside copyDirSync is reported but the process does not exit,
while with verbose diagnostics on the same failure exits the process,
so the classification both is non-fatal by default and depends on the
verbose setting, contrary to the claim. -/
theorem claim_C3_counterexample :
    (copyDirSync false true).reported = true ∧
    (copyDirSync false true).exited = false ∧
    (copyDirSync true true).exited = true := by
  decide

/-- C3 amended: a copy failure is always reported, and it terminates
the run with a non-zero status exactly when the verbose option is set,
so the fatal or non-fatal classification depends on the verbose
setting. -/
theorem claim_C3 (verbose : Bool) :
    (copyDirSync verbose true).reported = true ∧
    ((copyDirSync verbose true).exited = true ↔ verbose = true) := by
  cases verbose <;> simp [copyDirSync]

/-- C4 counterexample: a section whose column is 5 fails schema
validation, because the schema caps the column property at 4. -/
theorem claim_C4_counterexample :
    validateContents (JValue.arr [sectionWithColumn 5]) = false := by
  decide

/-- C4 amended: a section whose column is any integer from 1 to 4
passes schema validation; the range the schema accepts is 1 through 4,
column 5 existing only for the section the tool itself appends after
validation. -/
theorem claim_C4 (c : Int) (h₁ : 1 ≤ c) (h₂ : c ≤ 4) :
    validateContents (JValue.arr [sectionWithColumn c]) = true := by
  simp [validateContents, validSection, validPage, sectionWithColumn,
    hasField, getField, strIfPresent, intRangeIfPresent, arrIfPresent,
    boolIfPresent, List.find?, h₁, h₂]

theorem claim_C4_witness :
    (1 : Int) ≤ 2 ∧ (2 : Int) ≤ 4 ∧
      validateContents (JValue.arr [sectionWithColumn 2]) = true :=
  ⟨by decide, by decide, claim_C4 2 (by decide) (by decide)⟩

/-- C5: when the parameters file is malformed JSON or fails schema
validation, the run exits with status 1 and the list of files it wrote
is empty, so nothing reaches the output root. -/
theorem claim_C5 (opts : Options) (inp : Input)
    (h : inp.parametersJson = none ∨
      ∃ pj, inp.parametersJson = some pj ∧ validateParameters pj = false) :
    (run opts inp).exitCode = 1 ∧ (run opts inp).writes = [] := by
  rcases h with h | ⟨pj, hpj, hval⟩
  · simp [run, h]
  · simp [run, hpj, hval]

theorem claim_C5_witness :
    inpNoParams.parametersJson = none ∧
    ((run optsNoPdf inpNoParams).exitCode = 1 ∧
      (run optsNoPdf inpNoParams).writes = []) :=
  ⟨rfl, claim_C5 optsNoPdf inpNoParams (Or.inl rfl)⟩

/-- C10: this parameters document passes schema validation although it
has no backlink field, and the parameter injection step then fails with
a type error when it dereferences the url property of the missing
backlink, exactly as the claim describes. -/
theorem claim_C10 :
    validateParameters pExample = true ∧
    linkOrText pExample "backlink" =
      Except.error "TypeError: cannot read property of undefined" :=
  ⟨by decide, rfl⟩

/-- C2 counterexample: on the empty contents document (after the
synthetic extra section is appended, as always happens before either
traversal runs) the web table of contents traversal yields no page
path, while the PDF page-list argument holds the release notes page,
so the two sequences differ. -/
theorem claim_C2_counterexample :
    webTocPaths (sortPages (augmentContents [])) ≠
      pdfPagePaths "" (sortPages (augmentContents [])) := by
  decide

/-- C2 amended: the PDF page-list argument equals the web table of
contents traversal followed by the column 5 pages, each path prefixed
with the output root; the two traversals agree on columns 1 through 4
and differ exactly by the column 5 pages the web grid skips. -/
theorem claim_C2 (output : String) (sorted : Nat → List TocSection) :
    pdfPagePaths output sorted =
      (webTocPaths sorted ++ (sorted 5).flatMap sectionPagePaths).map
        (fun p => output ++ p) := by
  simp [pdfPagePaths, webTocPaths, sectionPagePaths, List.map_flatMap,
    List.map_map, Function.comp_def]

theorem run_success_writes (opts : Options) (inp : Input) (pj cj : JValue)
    (hpj : inp.parametersJson = some pj) (hvp : validateParameters pj = true)
    (hcj : inp.contentsJson = some cj) (hvc : validateContents cj = true)
    (hdone : (run opts inp).exitCode = 0) :
    (run opts inp).writes =
      writeTargets (augmentContents (decodeContents cj)) opts.pdf ++
        (if opts.redirect then [OutLoc.parent "index.html"] else []) := by
  cases hs : inp.sourcesOk
  · simp [run, hpj, hvp, hcj, hvc, hs] at hdone
  · cases hins : insertParameters pj (augmentContents (decodeContents cj)) with
    | error e => simp [run, hpj, hvp, hcj, hvc, hs, hins] at hdone
    | ok u =>
      cases hw : inp.writesOk
      · simp [run, hpj, hvp, hcj, hvc, hs, hins, hw] at hdone
      · cases hex1 : (copyDirSync opts.verbose inp.copyRequireFails).exited
        · cases hex2 : (copyDirSync opts.verbose inp.copyFilesFails).exited
          · cases hpdf : opts.pdf
            · simp [run, hpj, hvp, hcj, hvc, hs, hins, hw, hex1, hex2, hpdf]
            · cases hv : inp.versionOutput
              · simp [run, hpj, hvp, hcj, hvc, hs, hins, hw, hex1, hex2, hpdf,
                  hv] at hdone
              · simp [run, hpj, hvp, hcj, hvc, hs, hins, hw, hex1, hex2, hpdf, hv]
          · simp [run, hpj, hvp, hcj, hvc, hs, hins, hw, hex1, hex2] at hdone
        · simp [run, hpj, hvp, hcj, hvc, hs, hins, hw, hex1] at hdone

/-- C1 counterexample: on a valid input declaring no page at all, the
completed run still writes release-notes.html at the output root, so
the output root does not hold exactly one file per declared page plus
ownership.html. -/
theorem claim_C1_counterexample :
    (run optsNoPdf inpEmptyContents).exitCode = 0 ∧
    rootFiles (run optsNoPdf inpEmptyContents).writes ≠ ["ownership.html"] := by
  decide

/-- C1 amended: a completed run writes, at the output root, exactly one
HTML file per declared page in declaration order at the path derived
from its source identifier, then release-notes.html for the
system-appended release notes page, then ownership.html, and nothing
else; the transient PDF fragment files live in the temp subdirectory,
not at the root. -/
theorem claim_C1 (opts : Options) (inp : Input) (pj cj : JValue)
    (hpj : inp.parametersJson = some pj) (hvp : validateParameters pj = true)
    (hcj : inp.contentsJson = some cj) (hvc : validateContents cj = true)
    (hdone : (run opts inp).exitCode = 0) :
    rootFiles (run opts inp).writes =
      (decodeContents cj).flatMap sectionPagePaths ++
        ["release-notes.html", "ownership.html"] := by
  rw [run_success_writes opts inp pj cj hpj hvp hcj hvc hdone,
    rootFiles_append, rootFiles_writeTargets, flatMap_augment]
  cases hr : opts.redirect <;> simp [rootFiles]

theorem claim_C1_witness :
    (run optsNoPdf inpGoodNoPdf).exitCode = 0 ∧
    rootFiles (run optsNoPdf inpGoodNoPdf).writes =
      (decodeContents cExample).flatMap sectionPagePaths ++
        ["release-notes.html", "ownership.html"] :=
  ⟨by decide, claim_C1 optsNoPdf inpGoodNoPdf pFull cExample rfl (by decide)
    rfl (by decide) (by decide)⟩

/-- C6: with the PDF toggle on and every stage before the version probe
succeeding (including the parameter injection, which throws before any
write when the validated parameters lack a backlink), a probe that
cannot execute at all makes the run exit with status 1 without ever
invoking the renderer (so no PDF is produced), while a probe that runs
but reports a version different from the pinned one only adds a
warning, the renderer is invoked, and the run exits with status 0. -/
theorem claim_C6 (opts : Options) (inp : Input) (pj cj : JValue)
    (hpdf : opts.pdf = true)
    (hpj : inp.parametersJson = some pj) (hvp : validateParameters pj = true)
    (hcj : inp.contentsJson = some cj) (hvc : validateContents cj = true)
    (hs : inp.sourcesOk = true) (hw : inp.writesOk = true)
    (hc1 : inp.copyRequireFails = false) (hc2 : inp.copyFilesFails = false)
    (hins : insertParameters pj (augmentContents (decodeContents cj)) =
      Except.ok ()) :
    (inp.versionOutput = none →
      (run opts inp).exitCode = 1 ∧ (run opts inp).pdfInvoked = false) ∧
    (∀ v, inp.versionOutput = some v → jsTrim v ≠ wkhtmltopdfVersion →
      (run opts inp).exitCode = 0 ∧ (run opts inp).pdfInvoked = true ∧
      "unexpected version of wkhtmltopdf" ∈ (run opts inp).warnings) := by
  constructor
  · intro hv
    simp [run, hpj, hvp, hcj, hvc, hs, hins, hw, hc1, hc2, hpdf, hv, copyDirSync]
  · intro v hv hne
    have hbne : (jsTrim v != wkhtmltopdfVersion) = true := by
      simp [bne_iff_ne, hne]
    simp [run, hpj, hvp, hcj, hvc, hs, hins, hw, hc1, hc2, hpdf, hv, copyDirSync,
      hbne]

theorem claim_C6_witness :
    jsTrim "wkhtmltopdf 0.13.0 (unpatched)" ≠ wkhtmltopdfVersion ∧
    ((run optsPdf inpGoodPdfBadVersion).exitCode = 0 ∧
      (run optsPdf inpGoodPdfBadVersion).pdfInvoked = true ∧
      "unexpected version of wkhtmltopdf" ∈
        (run optsPdf inpGoodPdfBadVersion).warnings) :=
  ⟨by decide,
    (claim_C6 optsPdf inpGoodPdfBadVersion pFull cExample rfl rfl (by decide)
      rfl (by decide) rfl rfl rfl rfl rfl).2 "wkhtmltopdf 0.13.0 (unpatched)" rfl
      (by decide)⟩

/-- C7: any page whose html flag is true is loaded without the Markdown
renderer touching it — the loaded pages mapping associates its source
identifier with the file text after only BOM stripping, whatever the
renderer does. -/
theorem claim_C7 (render : String → String) (contents : List TocSection)
    (files : String → String) (p : Page)
    (hp : p ∈ contents.flatMap (fun s => s.pages)) (hhtml : p.html = true) :
    (p.source, stripBOM (files p.source)) ∈ loadPages render contents files := by
  unfold loadPages
  apply List.mem_append_left
  have hm := List.mem_map_of_mem
    (fun q => (q.source, loadPage render q.html (files q.source))) hp
  simpa [loadPage, hhtml] using hm

theorem claim_C7_witness :
    rawPage ∈ [rawSection].flatMap (fun s => s.pages) ∧ rawPage.html = true ∧
    (rawPage.source, stripBOM ((fun _ => "\uFEFFBody") rawPage.source)) ∈
      loadPages (fun s => "<p>" ++ s ++ "</p>") [rawSection]
        (fun _ => "\uFEFFBody") :=
  ⟨by decide, rfl,
    claim_C7 (fun s => "<p>" ++ s ++ "</p>") [rawSection]
      (fun _ => "\uFEFFBody") rawPage (by decide) rfl⟩

theorem getField_of_hasField (fs : List (String × JValue)) (k : String)
    (h : hasField fs k = true) : ∃ v, getField fs k = some v := by
  rw [hasField_eq_isSome] at h
  exact Option.isSome_iff_exists.mp h

theorem decode_columns (cj : JValue) (h : validateContents cj = true) :
    ∀ s ∈ decodeContents cj, 1 ≤ s.column ∧ s.column ≤ 4 := by
  intro s hs
  cases cj with
  | arr items =>
      simp only [decodeContents, List.mem_map] at hs
      obtain ⟨j, hj, rfl⟩ := hs
      have hv : validSection j = true := by
        simp only [validateContents, List.all_eq_true] at h
        exact h j hj
      cases j with
      | obj fs =>
          simp only [validSection, Bool.and_eq_true] at hv
          obtain ⟨⟨⟨⟨⟨hh, hc⟩, hp⟩, hn⟩, he⟩, hf⟩ := hv
          obtain ⟨v, hgv⟩ := getField_of_hasField fs "column" hc
          unfold intRangeIfPresent at he
          rw [hgv] at he
          cases v with
          | int n =>
              simp only [Bool.and_eq_true, decide_eq_true_eq] at he
              simp only [decodeSection]
              rw [hgv]
              simpa [asInt] using he
          | null => simp at he
          | bool b => simp at he
          | str t => simp at he
          | arr l => simp at he
          | obj o => simp at he
      | null => simp [validSection] at hv
      | bool b => simp [validSection] at hv
      | int n => simp [validSection] at hv
      | str t => simp [validSection] at hv
      | arr l => simp [validSection] at hv
  | null => simp [decodeContents] at hs
  | bool b => simp [decodeContents] at hs
  | int n => simp [decodeContents] at hs
  | str t => simp [decodeContents] at hs
  | obj o => simp [decodeContents] at hs

theorem sortPages_augment_low (c : List TocSection) (k : Nat)
    (h₁ : 1 ≤ k) (h₂ : k ≤ 4) :
    sortPages (augmentContents c) k = sortPages c k := by
  have hk : 1 ≤ k ∧ k ≤ 5 := ⟨h₁, by omega⟩
  have hne : (extraSection.column == (k : Int)) = false := by
    simp only [extraSection, beq_eq_false_iff_ne, ne_eq]
    omega
  simp [sortPages, hk, augmentContents, List.filter_append, hne]

/-- C8: on every schema-valid contents input, the synthetic extra
section appears exactly once in the augmented contents, the sorted
pages place it alone in column 5 whatever the input section order, and
the visible web table of contents traversal is unchanged by it, since
the grid skips column 5. -/
theorem claim_C8 (cj : JValue) (h : validateContents cj = true) :
    (augmentContents (decodeContents cj)).count extraSection = 1 ∧
    sortPages (augmentContents (decodeContents cj)) 5 = [extraSection] ∧
    webTocPaths (sortPages (augmentContents (decodeContents cj))) =
      webTocPaths (sortPages (decodeContents cj)) := by
  have hcol := decode_columns cj h
  have hnot : extraSection ∉ decodeContents cj := by
    intro hmem
    have hb := hcol _ hmem
    simp only [extraSection] at hb
    omega
  refine ⟨?_, ?_, ?_⟩
  · simp [augmentContents, List.count_append, List.count_eq_zero.mpr hnot]
  · have hfil : (decodeContents cj).filter (fun s => s.column == (5 : Int)) = [] := by
      rw [List.filter_eq_nil_iff]
      intro s hs
      have hb := hcol s hs
      simp only [beq_iff_eq]
      omega
    simp [sortPages, augmentContents, List.filter_append, hfil, extraSection]
  · simp only [webTocPaths, List.flatMap_cons, List.flatMap_nil]
    rw [sortPages_augment_low _ 1 (by omega) (by omega),
        sortPages_augment_low _ 2 (by omega) (by omega),
        sortPages_augment_low _ 3 (by omega) (by omega),
        sortPages_augment_low _ 4 (by omega) (by omega)]

theorem claim_C8_witness :
    validateContents cExample = true ∧
    ((augmentContents (decodeContents cExample)).count extraSection = 1 ∧
      sortPages (augmentContents (decodeContents cExample)) 5 = [extraSection] ∧
      webTocPaths (sortPages (augmentContents (decodeContents cExample))) =
        webTocPaths (sortPages (decodeContents cExample))) :=
  ⟨by decide, claim_C8 cExample (by decide)⟩

theorem toLowerCh_toNat (c : Char) :
    (toLowerCh c).toNat =
      if 65 ≤ c.toNat ∧ c.toNat ≤ 90 then c.toNat + 32 else c.toNat := by
  unfold toLowerCh
  split <;> rfl

theorem toLowerCh_eq_self (c : Char) (h : ¬(65 ≤ c.toNat ∧ c.toNat ≤ 90)) :
    toLowerCh c = c := by
  unfold toLowerCh
  rw [dif_neg h]

theorem toLowerCh_not_upper (c : Char) :
    ¬(65 ≤ (toLowerCh c).toNat ∧ (toLowerCh c).toNat ≤ 90) := by
  rw [toLowerCh_toNat]
  split <;> omega

theorem toLowerCh_idem (c : Char) : toLowerCh (toLowerCh c) = toLowerCh c :=
  toLowerCh_eq_self _ (toLowerCh_not_upper c)

theorem hyphen_not_ws : jsWhitespace '-' = false := by decide

theorem toLowerCh_hyphen : toLowerCh '-' = '-' := by decide

theorem mem_collapseWs (l : List Char) (flag : Bool) (c : Char)
    (h : c ∈ collapseWs flag l) :
    c = '-' ∨ (jsWhitespace c = false ∧ c ∈ l) := by
  induction l generalizing flag with
  | nil => simp [collapseWs] at h
  | cons x xs ih =>
      by_cases hx : jsWhitespace x = true
      · simp only [collapseWs, hx, if_true] at h
        rcases List.mem_append.mp h with h₁ | h₂
        · left
          cases flag
          · simpa using h₁
          · simp at h₁
        · rcases ih true h₂ with h₃ | ⟨hw, hm⟩
          · exact Or.inl h₃
          · exact Or.inr ⟨hw, List.mem_cons_of_mem _ hm⟩
      · rw [Bool.not_eq_true] at hx
        simp only [collapseWs, hx, Bool.false_eq_true, if_false] at h
        rcases List.mem_cons.mp h with rfl | h₂
        · exact Or.inr ⟨hx, List.mem_cons_self _ _⟩
        · rcases ih false h₂ with h₃ | ⟨hw, hm⟩
          · exact Or.inl h₃
          · exact Or.inr ⟨hw, List.mem_cons_of_mem _ hm⟩

theorem collapseWs_no_ws (l : List Char) (flag : Bool) (c : Char)
    (h : c ∈ collapseWs flag l) : jsWhitespace c = false := by
  rcases mem_collapseWs l flag c h with rfl | ⟨hw, _⟩
  · exact hyphen_not_ws
  · exact hw

theorem collapseWs_id (l : List Char) (h : ∀ c ∈ l, jsWhitespace c = false)
    (flag : Bool) : collapseWs flag l = l := by
  induction l generalizing flag with
  | nil => rfl
  | cons x xs ih =>
      have hx := h x (List.mem_cons_self _ _)
      simp [collapseWs, hx, ih (fun c hc => h c (List.mem_cons_of_mem _ hc))]

theorem upperLatin_toLowerCh (c : Char) : upperLatin (toLowerCh c) = false := by
  simp only [upperLatin, decide_eq_false_iff_not]
  exact toLowerCh_not_upper c

theorem basicLatinLower_out (s : String) :
    ∀ c ∈ (basicLatinLower s).data, upperLatin c = false := by
  intro c hc
  rcases List.mem_map.mp hc with ⟨x, _, rfl⟩
  exact upperLatin_toLowerCh x

theorem basicLatinLower_fix (t : String)
    (h : ∀ c ∈ t.data, upperLatin c = false) : basicLatinLower t = t := by
  unfold basicLatinLower
  have h₂ : ∀ c ∈ t.data, toLowerCh c = id c := by
    intro c hc
    have hb := h c hc
    simp only [upperLatin, decide_eq_false_iff_not] at hb
    exact toLowerCh_eq_self c hb
  rw [List.map_congr_left h₂, List.map_id]

/-- C9: for every lowercasing function low satisfying the contract of
the case-conversion builtin — some character class is the one it
rewrites, its output is free of that class, it is the identity on
strings free of that class, and the hyphen is outside the class (all
facts that hold of Unicode full lowercasing, with the class being the
characters whose lowercase mapping is nontrivial) — the heading slug
built on low is deterministic: equal heading texts always yield equal
anchor ids; and idempotent: applied to its own output it returns the
same string. -/
theorem claim_C9 (low : String → String) (changes : Char → Bool)
    (hout : ∀ s : String, ∀ c ∈ (low s).data, changes c = false)
    (hfix : ∀ t : String, (∀ c ∈ t.data, changes c = false) → low t = t)
    (hhyphen : changes '-' = false) :
    (∀ a b : String, a = b → slugifyWith low a = slugifyWith low b) ∧
    (∀ s : String, slugifyWith low (slugifyWith low s) = slugifyWith low s) := by
  refine ⟨fun a b h => by rw [h], fun s => ?_⟩
  have hchars : ∀ c ∈ (slugifyWith low s).data, changes c = false := by
    intro c hc
    rcases mem_collapseWs ((low s).data) false c hc with rfl | ⟨_, hm⟩
    · exact hhyphen
    · exact hout s c hm
  have hlowfix : low (slugifyWith low s) = slugifyWith low s := hfix _ hchars
  have hstep : slugifyWith low (slugifyWith low s) =
      String.mk (collapseWs false (low (slugifyWith low s)).data) := rfl
  rw [hstep, hlowfix]
  have hwsfree : ∀ c ∈ (slugifyWith low s).data, jsWhitespace c = false :=
    fun c hc => collapseWs_no_ws ((low s).data) false c hc
  rw [collapseWs_id _ hwsfree false]

theorem claim_C9_witness :
    slugifyWith basicLatinLower "My Heading" =
      slugifyWith basicLatinLower "My Heading" ∧
    slugifyWith basicLatinLower (slugifyWith basicLatinLower "My  Heading") =
      slugifyWith basicLatinLower "My  Heading" :=
  ⟨(claim_C9 basicLatinLower upperLatin basicLatinLower_out basicLatinLower_fix
      (by decide)).1 "My Heading" "My Heading" rfl,
   (claim_C9 basicLatinLower upperLatin basicLatinLower_out basicLatinLower_fix
      (by decide)).2 "My  Heading"⟩

end DocGen
